import Mathlib

/-!
Verification development for the OptionStrategy repository.

Part A embeds `option_strategy/strategy.py` (legs, strategies, P&L
evaluation, breakeven search, preset constructors).  Python floats are
embedded as exact rationals; numpy reductions over an empty array, which
raise at runtime, are embedded as `Except.error`.

Part B embeds `option_strategy/pricing.py` (the Black-Scholes model).
Floats are embedded as real numbers and `scipy.stats.norm.cdf` as the
standard normal cumulative distribution written as a Gaussian integral.
-/

/-- One leg of an options strategy (`strategy.py`, `class OptionLeg`):
raw fields of the dataclass. -/
structure OptionLeg where
  option_type : String
  strike : ℚ
  position : String
  premium : ℚ
  quantity : ℤ
  deriving DecidableEq, Repr

/-- Construction of an `OptionLeg` including the dataclass
`__post_init__` validation (`strategy.py` lines 26-32).  The three
checks run in the source's order; error messages are abridged. -/
def mkOptionLeg (option_type : String) (strike : ℚ) (position : String)
    (premium : ℚ) (quantity : ℤ) : Except String OptionLeg :=
  if ¬(option_type = "call" ∨ option_type = "put") then
    .error "option_type must be call or put"
  else if ¬(position = "long" ∨ position = "short") then
    .error "position must be long or short"
  else if quantity < 1 then
    .error "quantity must be at least 1"
  else
    .ok ⟨option_type, strike, position, premium, quantity⟩

/-- `OptionLeg.direction` (`strategy.py` lines 34-37): +1 for long,
-1 otherwise. -/
def OptionLeg.direction (l : OptionLeg) : ℤ :=
  if l.position = "long" then 1 else -1

/-- `OptionLeg.payoff_at_expiry` (`strategy.py` lines 39-45). -/
def OptionLeg.payoff_at_expiry (l : OptionLeg) (spot : ℚ) : ℚ :=
  let intrinsic :=
    if l.option_type = "call" then max (spot - l.strike) 0
    else max (l.strike - spot) 0
  (l.direction : ℚ) * (intrinsic - l.premium) * (l.quantity : ℚ)

/-- `OptionLeg.payoff_array` (`strategy.py` lines 47-53): the numpy
vectorized path, with `np.maximum` and the scalar broadcasts embedded as
maps over the list of spots. -/
def OptionLeg.payoff_array (l : OptionLeg) (spots : List ℚ) : List ℚ :=
  let intrinsic :=
    if l.option_type = "call" then spots.map (fun s => max (s - l.strike) 0)
    else spots.map (fun s => max (l.strike - s) 0)
  intrinsic.map (fun v => (l.direction : ℚ) * (v - l.premium) * (l.quantity : ℚ))

/-- `class Strategy` (`strategy.py` lines 72-80): a name and an ordered
list of legs. -/
structure Strategy where
  name : String
  legs : List OptionLeg
  deriving DecidableEq, Repr

/-- `class PnLResult` (`strategy.py` lines 56-63). -/
structure PnLResult where
  spots : List ℚ
  pnl : List ℚ
  max_profit : ℚ
  max_loss : ℚ
  breakevens : List ℚ
  deriving DecidableEq, Repr

/-- Python's `round(x, 2)` used on an interpolated breakeven
(`strategy.py` line 148): rounding to two decimal places. -/
def round2 (x : ℚ) : ℚ :=
  ((round (x * 100) : ℤ) : ℚ) / 100

/-- `np.linspace(start, stop, num)` (`strategy.py` line 109): `num`
evenly spaced samples, both endpoints included (a single sample is the
start point; zero samples give the empty grid). -/
def linspace (start stop : ℚ) (num : ℕ) : List ℚ :=
  (List.range num).map (fun i : ℕ =>
    if num ≤ 1 then start
    else start + (stop - start) * (i : ℚ) / ((num : ℚ) - 1))

/-- Python's builtin `max` over a list of floats (`strategy.py`
line 105).  The source only calls it on a non-empty list of strikes; the
`[]` case is junk. -/
def listMax : List ℚ → ℚ
  | [] => 0
  | x :: xs => xs.foldl max x

/-- Python's builtin `min` over a list of floats (`strategy.py`
line 105).  The source only calls it on a non-empty list of strikes; the
`[]` case is junk. -/
def listMin : List ℚ → ℚ
  | [] => 0
  | x :: xs => xs.foldl min x

/-- `np.max` (`strategy.py` line 115): reduction that fails on an empty
array. -/
def npMax : List ℚ → Except String ℚ
  | [] => .error "zero-size array to reduction operation"
  | x :: xs => .ok (xs.foldl max x)

/-- `np.min` (`strategy.py` line 116): reduction that fails on an empty
array. -/
def npMin : List ℚ → Except String ℚ
  | [] => .error "zero-size array to reduction operation"
  | x :: xs => .ok (xs.foldl min x)

/-- The accumulation loop of `Strategy.pnl_at_expiry` (`strategy.py`
lines 110-113): start from `np.zeros_like(spots)` and add each leg's
vectorized payoff. -/
def totalPnl (legs : List OptionLeg) (spots : List ℚ) : List ℚ :=
  legs.foldl (fun acc leg => List.zipWith (· + ·) acc (leg.payoff_array spots))
    (spots.map (fun _ => (0 : ℚ)))

/-- The auto-derivation of the spot range in `Strategy.pnl_at_expiry`
(`strategy.py` lines 102-107), for a non-empty list of legs. -/
def autoRange (legs : List OptionLeg) : ℚ × ℚ :=
  let strikes := legs.map (·.strike)
  let center := strikes.sum / (strikes.length : ℚ)
  let spread := listMax strikes - listMin strikes
  let margin := max spread (center * (1 / 5))
  (center - margin, center + margin)

/-- The breakeven scan `_find_breakevens` (`strategy.py` lines
140-149): the loop `for i in range(len(pnl) - 1)` becomes a `filterMap`
over `List.range (pnl.length - 1)`. -/
def find_breakevens (spots pnl : List ℚ) : List ℚ :=
  (List.range (pnl.length - 1)).filterMap (fun i =>
    if pnl.getD i 0 * pnl.getD (i + 1) 0 < 0 then
      some (round2 (spots.getD i 0 +
        |pnl.getD i 0| / (|pnl.getD i 0| + |pnl.getD (i + 1) 0|) *
          (spots.getD (i + 1) 0 - spots.getD i 0)))
    else none)

/-- `Strategy.pnl_at_expiry` (`strategy.py` lines 91-126).  The two
runtime failures are distinguished by their messages: the explicit
`ValueError` for an empty strategy, and numpy's reduction error when the
grid is empty (Python computes `np.max` first, then `np.min`). -/
def Strategy.pnl_at_expiry (s : Strategy) (spot_range : Option (ℚ × ℚ))
    (num_points : ℕ) : Except String PnLResult :=
  if s.legs = [] then .error "Strategy has no legs"
  else
    let range :=
      match spot_range with
      | some r => r
      | none => autoRange s.legs
    let spots := linspace range.1 range.2 num_points
    let pnl := totalPnl s.legs spots
    match npMax pnl, npMin pnl with
    | .ok mx, .ok mn =>
        .ok ⟨spots, pnl, mx, mn, find_breakevens spots pnl⟩
    | .error e, _ => .error e
    | .ok _, .error e => .error e

/-- Preset `long_call` (`strategy.py` lines 154-158). -/
def long_call (spot strike premium : ℚ) : Strategy :=
  ⟨"Long Call", [⟨"call", strike, "long", premium, 1⟩]⟩

/-- Preset `long_put` (`strategy.py` lines 161-165). -/
def long_put (spot strike premium : ℚ) : Strategy :=
  ⟨"Long Put", [⟨"put", strike, "long", premium, 1⟩]⟩

/-- Preset `bull_call_spread` (`strategy.py` lines 168-174). -/
def bull_call_spread (spot lower_strike upper_strike lower_premium
    upper_premium : ℚ) : Strategy :=
  ⟨"Bull Call Spread",
    [⟨"call", lower_strike, "long", lower_premium, 1⟩,
     ⟨"call", upper_strike, "short", upper_premium, 1⟩]⟩

/-- Preset `bear_put_spread` (`strategy.py` lines 177-183). -/
def bear_put_spread (spot lower_strike upper_strike lower_premium
    upper_premium : ℚ) : Strategy :=
  ⟨"Bear Put Spread",
    [⟨"put", upper_strike, "long", upper_premium, 1⟩,
     ⟨"put", lower_strike, "short", lower_premium, 1⟩]⟩

/-- Preset `straddle` (`strategy.py` lines 186-192). -/
def straddle (spot strike call_premium put_premium : ℚ) : Strategy :=
  ⟨"Long Straddle",
    [⟨"call", strike, "long", call_premium, 1⟩,
     ⟨"put", strike, "long", put_premium, 1⟩]⟩

/-- Preset `strangle` (`strategy.py` lines 195-201). -/
def strangle (spot call_strike put_strike call_premium put_premium : ℚ) :
    Strategy :=
  ⟨"Long Strangle",
    [⟨"call", call_strike, "long", call_premium, 1⟩,
     ⟨"put", put_strike, "long", put_premium, 1⟩]⟩

/-- Preset `iron_condor` (`strategy.py` lines 204-217). -/
def iron_condor (spot put_lower put_upper call_lower call_upper
    put_lower_prem put_upper_prem call_lower_prem call_upper_prem : ℚ) :
    Strategy :=
  ⟨"Iron Condor",
    [⟨"put", put_lower, "long", put_lower_prem, 1⟩,
     ⟨"put", put_upper, "short", put_upper_prem, 1⟩,
     ⟨"call", call_lower, "short", call_lower_prem, 1⟩,
     ⟨"call", call_upper, "long", call_upper_prem, 1⟩]⟩

/-- Preset `butterfly_spread` (`strategy.py` lines 220-228). -/
def butterfly_spread (spot lower middle upper lower_prem middle_prem
    upper_prem : ℚ) : Strategy :=
  ⟨"Butterfly Spread",
    [⟨"call", lower, "long", lower_prem, 1⟩,
     ⟨"call", middle, "short", middle_prem, 2⟩,
     ⟨"call", upper, "long", upper_prem, 1⟩]⟩

/-- Linear interpolation of the zero crossing between grid points `i`
and `i + 1`, as written in the specification of the breakeven scan. -/
def interpCrossing (spots pnl : List ℚ) (i : ℕ) : ℚ :=
  spots.getD i 0 +
    |pnl.getD i 0| / (|pnl.getD i 0| + |pnl.getD (i + 1) 0|) *
      (spots.getD (i + 1) 0 - spots.getD i 0)

/-- The breakeven list as described by the specification: keep exactly
the adjacent index pairs with strictly opposite signs, in left-to-right
order, and map each to its rounded interpolated crossing. -/
def breakevensSpec (spots pnl : List ℚ) : List ℚ :=
  ((List.range (pnl.length - 1)).filter (fun i =>
      decide (pnl.getD i 0 * pnl.getD (i + 1) 0 < 0))).map
    (fun i => round2 (interpCrossing spots pnl i))

instance {ε α : Type _} [DecidableEq ε] [DecidableEq α] :
    DecidableEq (Except ε α) := fun a b =>
  match a, b with
  | .ok x, .ok y =>
      if h : x = y then .isTrue (congrArg Except.ok h)
      else .isFalse (fun hc => h (Except.ok.inj hc))
  | .error x, .error y =>
      if h : x = y then .isTrue (congrArg Except.error h)
      else .isFalse (fun hc => h (Except.error.inj hc))
  | .ok _, .error _ => .isFalse (fun hc => Except.noConfusion hc)
  | .error _, .ok _ => .isFalse (fun hc => Except.noConfusion hc)

/-- C5.  Leg payoff formula and sign convention: for a validly
constructed `OptionLeg`, `payoff_at_expiry spot` is
`direction * (intrinsic spot - premium) * quantity` with
`intrinsic = max (spot - strike) 0` for calls and
`max (strike - spot) 0` for puts, `direction` is `+1` for long and `-1`
for short, and on the concrete long/short call (strike 100, premium 5,
quantity 1) the payoff is `5` at spot `110`, `-5` at spot `90`, and the
short side negates both. -/
theorem C5_leg_payoff_formula (ot : String) (k : ℚ) (pos : String)
    (prem : ℚ) (q : ℤ) (l : OptionLeg)
    (h : mkOptionLeg ot k pos prem q = .ok l) :
    (l.position = "long" → l.direction = 1) ∧
    (l.position = "short" → l.direction = -1) ∧
    (∀ spot, l.option_type = "call" →
      l.payoff_at_expiry spot =
        (l.direction : ℚ) * (max (spot - l.strike) 0 - l.premium) * (l.quantity : ℚ)) ∧
    (∀ spot, l.option_type = "put" →
      l.payoff_at_expiry spot =
        (l.direction : ℚ) * (max (l.strike - spot) 0 - l.premium) * (l.quantity : ℚ)) ∧
    OptionLeg.payoff_at_expiry ⟨"call", 100, "long", 5, 1⟩ 110 = 5 ∧
    OptionLeg.payoff_at_expiry ⟨"call", 100, "long", 5, 1⟩ 90 = -5 ∧
    OptionLeg.payoff_at_expiry ⟨"call", 100, "short", 5, 1⟩ 110 = -5 ∧
    OptionLeg.payoff_at_expiry ⟨"call", 100, "short", 5, 1⟩ 90 = 5 := by
  have hlf : ("long" = "long") = True := by simp
  have hsf : ("short" = "long") = False := by simp
  refine ⟨?_, ?_, ?_, ?_,
    by norm_num [OptionLeg.payoff_at_expiry, OptionLeg.direction, hlf],
    by norm_num [OptionLeg.payoff_at_expiry, OptionLeg.direction, hlf],
    by norm_num [OptionLeg.payoff_at_expiry, OptionLeg.direction, hsf],
    by norm_num [OptionLeg.payoff_at_expiry, OptionLeg.direction, hsf]⟩
  · intro hpos; simp [OptionLeg.direction, hpos]
  · intro hpos; simp [OptionLeg.direction, hpos]
  · intro spot hct; simp [OptionLeg.payoff_at_expiry, hct]
  · intro spot hpt
    have : l.option_type ≠ "call" := by rw [hpt]; decide
    simp [OptionLeg.payoff_at_expiry, this]

/-- Witness for C5 at the concrete long call leg. -/
theorem C5_leg_payoff_formula_witness :
    mkOptionLeg "call" 100 "long" 5 1 =
      Except.ok ⟨"call", 100, "long", 5, 1⟩ ∧
    OptionLeg.payoff_at_expiry ⟨"call", 100, "long", 5, 1⟩ 110 = 5 :=
  ⟨rfl, (C5_leg_payoff_formula "call" 100 "long" 5 1 _ rfl).2.2.2.2.1⟩

/-- C6.  Vector/scalar equivalence: the vectorized `payoff_array` equals
the pointwise map of the scalar `payoff_at_expiry` on every list of
spots. -/
theorem C6_vector_scalar_equivalence (l : OptionLeg) (spots : List ℚ) :
    l.payoff_array spots = spots.map l.payoff_at_expiry := by
  by_cases h : l.option_type = "call" <;>
    simp [OptionLeg.payoff_array, OptionLeg.payoff_at_expiry, h, List.map_map,
      Function.comp]

/-- C8.  An empty strategy always fails P&L evaluation with the
no-legs error, and `OptionLeg` construction succeeds exactly when the
option type is `call` or `put`, the position is `long` or `short`, and
the quantity is at least 1 — so no invalid leg object can exist. -/
theorem C8_empty_strategy_and_validation :
    (∀ (name : String) (spot_range : Option (ℚ × ℚ)) (num_points : ℕ),
      Strategy.pnl_at_expiry ⟨name, []⟩ spot_range num_points =
        .error "Strategy has no legs") ∧
    (∀ (ot : String) (k : ℚ) (pos : String) (prem : ℚ) (q : ℤ),
      (∃ l, mkOptionLeg ot k pos prem q = .ok l) ↔
        ((ot = "call" ∨ ot = "put") ∧ (pos = "long" ∨ pos = "short") ∧
          1 ≤ q)) := by
  constructor
  · intro name spot_range num_points
    simp [Strategy.pnl_at_expiry]
  · intro ot k pos prem q
    constructor
    · rintro ⟨l, hl⟩
      by_cases h1 : ot = "call" ∨ ot = "put"
      · by_cases h2 : pos = "long" ∨ pos = "short"
        · by_cases h3 : q < 1
          · simp [mkOptionLeg, h1, h2, h3] at hl
          · exact ⟨h1, h2, not_lt.mp h3⟩
        · simp [mkOptionLeg, h1, h2] at hl
      · simp [mkOptionLeg, h1] at hl
    · rintro ⟨h1, h2, h3⟩
      refine ⟨⟨ot, k, pos, prem, q⟩, ?_⟩
      simp [mkOptionLeg, h1, h2, not_lt.mpr h3]

/-- C9.  Every preset constructor ignores its `spot` argument: the
returned strategy depends only on the strikes and premiums. -/
theorem C9_presets_ignore_spot :
    (∀ s t k p : ℚ, long_call s k p = long_call t k p) ∧
    (∀ s t k p : ℚ, long_put s k p = long_put t k p) ∧
    (∀ s t lo up lp upp : ℚ,
      bull_call_spread s lo up lp upp = bull_call_spread t lo up lp upp) ∧
    (∀ s t lo up lp upp : ℚ,
      bear_put_spread s lo up lp upp = bear_put_spread t lo up lp upp) ∧
    (∀ s t k cp pp : ℚ, straddle s k cp pp = straddle t k cp pp) ∧
    (∀ s t ck pk cp pp : ℚ,
      strangle s ck pk cp pp = strangle t ck pk cp pp) ∧
    (∀ s t a b c d pa pb pc pd : ℚ,
      iron_condor s a b c d pa pb pc pd = iron_condor t a b c d pa pb pc pd) ∧
    (∀ s t lo mid up pl pm pu : ℚ,
      butterfly_spread s lo mid up pl pm pu =
        butterfly_spread t lo mid up pl pm pu) :=
  ⟨fun _ _ _ _ => rfl, fun _ _ _ _ => rfl, fun _ _ _ _ _ _ => rfl,
   fun _ _ _ _ _ _ => rfl, fun _ _ _ _ _ => rfl, fun _ _ _ _ _ _ => rfl,
   fun _ _ _ _ _ _ _ _ _ _ => rfl, fun _ _ _ _ _ _ _ _ => rfl⟩

lemma filterMap_ite_eq_map_filter {α β : Type _} (p : α → Prop)
    [DecidablePred p] (f : α → β) (l : List α) :
    l.filterMap (fun a => if p a then some (f a) else none) =
      (l.filter (fun a => decide (p a))).map f := by
  induction l with
  | nil => rfl
  | cons a t ih => by_cases h : p a <;> simp [h, ih]

lemma find_breakevens_eq_spec (spots pnl : List ℚ) :
    find_breakevens spots pnl = breakevensSpec spots pnl :=
  filterMap_ite_eq_map_filter
    (fun i => pnl.getD i 0 * pnl.getD (i + 1) 0 < 0)
    (fun i => round2 (interpCrossing spots pnl i)) _

lemma round2_mono {a b : ℚ} (h : a ≤ b) : round2 a ≤ round2 b := by
  unfold round2
  have h1 : round (a * 100) ≤ round (b * 100) := by
    rw [round_eq, round_eq]
    exact Int.floor_le_floor (by linarith)
  have h2 : ((round (a * 100) : ℤ) : ℚ) ≤ ((round (b * 100) : ℤ) : ℚ) := by
    exact_mod_cast h1
  linarith

lemma sorted_getD_mono {l : List ℚ} (hs : l.Sorted (· ≤ ·)) {i j : ℕ}
    (hij : i ≤ j) (hj : j < l.length) : l.getD i 0 ≤ l.getD j 0 := by
  have hi : i < l.length := lt_of_le_of_lt hij hj
  rw [List.getD_eq_getElem l 0 hi, List.getD_eq_getElem l 0 hj]
  rcases eq_or_lt_of_le hij with h | h
  · subst h; exact le_refl _
  · exact List.pairwise_iff_getElem.mp hs i j hi hj h

lemma interpCrossing_bounds {spots pnl : List ℚ} {i : ℕ}
    (hcross : pnl.getD i 0 * pnl.getD (i + 1) 0 < 0)
    (huv : spots.getD i 0 ≤ spots.getD (i + 1) 0) :
    spots.getD i 0 ≤ interpCrossing spots pnl i ∧
      interpCrossing spots pnl i ≤ spots.getD (i + 1) 0 := by
  set a := pnl.getD i 0 with ha
  set b := pnl.getD (i + 1) 0 with hb
  have ha0 : a ≠ 0 := by
    intro h0; rw [h0, zero_mul] at hcross; exact lt_irrefl 0 hcross
  have hb0 : b ≠ 0 := by
    intro h0; rw [h0, mul_zero] at hcross; exact lt_irrefl 0 hcross
  have habs_a : 0 < |a| := abs_pos.mpr ha0
  have habs_b : 0 < |b| := abs_pos.mpr hb0
  have hden : 0 < |a| + |b| := by linarith
  have hfrac0 : 0 ≤ |a| / (|a| + |b|) := by positivity
  have hfrac1 : |a| / (|a| + |b|) ≤ 1 := by
    rw [div_le_one hden]; linarith
  unfold interpCrossing
  constructor
  · nlinarith [mul_nonneg hfrac0 (sub_nonneg.mpr huv)]
  · nlinarith [mul_le_mul_of_nonneg_right hfrac1 (sub_nonneg.mpr huv)]

/-- C3.  Breakeven detection: the scan records a breakeven exactly at
the adjacent pairs with `pnl i * pnl (i+1) < 0` (left to right), each
equal to the rounded linear interpolation of the crossing, and on an
ascending spot grid the returned list is ascending. -/
theorem C3_breakeven_detection (spots pnl : List ℚ)
    (hlen : pnl.length ≤ spots.length) (hs : spots.Sorted (· ≤ ·)) :
    find_breakevens spots pnl = breakevensSpec spots pnl ∧
      (find_breakevens spots pnl).Sorted (· ≤ ·) := by
  refine ⟨find_breakevens_eq_spec spots pnl, ?_⟩
  rw [find_breakevens_eq_spec spots pnl]
  unfold breakevensSpec
  rw [List.Sorted, List.pairwise_map]
  have hpw : ((List.range (pnl.length - 1)).filter (fun i =>
      decide (pnl.getD i 0 * pnl.getD (i + 1) 0 < 0))).Pairwise (· < ·) :=
    (List.pairwise_lt_range _).sublist (List.filter_sublist _)
  refine hpw.imp_of_mem ?_
  intro i j hi hj hij
  have hi' := List.of_mem_filter hi
  have hj' := List.of_mem_filter hj
  have hir := List.mem_range.mp (List.mem_of_mem_filter hi)
  have hjr := List.mem_range.mp (List.mem_of_mem_filter hj)
  have hci : pnl.getD i 0 * pnl.getD (i + 1) 0 < 0 := of_decide_eq_true hi'
  have hcj : pnl.getD j 0 * pnl.getD (j + 1) 0 < 0 := of_decide_eq_true hj'
  have hpos : 0 < pnl.length := by omega
  have hi1 : i + 1 < pnl.length := by omega
  have hj1 : j + 1 < pnl.length := by omega
  have hbi := interpCrossing_bounds hci
    (sorted_getD_mono hs (Nat.le_succ i) (lt_of_lt_of_le hi1 hlen))
  have hbj := interpCrossing_bounds hcj
    (sorted_getD_mono hs (Nat.le_succ j) (lt_of_lt_of_le hj1 hlen))
  have hmid : spots.getD (i + 1) 0 ≤ spots.getD j 0 :=
    sorted_getD_mono hs (by omega) (lt_of_lt_of_le (by omega : j < pnl.length) hlen)
  exact round2_mono (le_trans hbi.2 (le_trans hmid hbj.1))

/-- Witness for C3 on a concrete three-point grid with two crossings. -/
theorem C3_breakeven_detection_witness :
    (([1, -1, 1] : List ℚ).length ≤ ([0, 2, 4] : List ℚ).length) ∧
    ([0, 2, 4] : List ℚ).Sorted (· ≤ ·) ∧
    (find_breakevens [0, 2, 4] [1, -1, 1] =
        breakevensSpec [0, 2, 4] [1, -1, 1] ∧
      (find_breakevens [0, 2, 4] [1, -1, 1]).Sorted (· ≤ ·)) ∧
    find_breakevens [0, 2, 4] [1, -1, 1] = [1, 3] :=
  ⟨by simp, by norm_num,
   C3_breakeven_detection [0, 2, 4] [1, -1, 1] (by simp) (by norm_num),
   by norm_num [find_breakevens, round2, List.range_succ, List.filterMap_cons,
     List.getD_cons_zero, List.getD_cons_succ]⟩

lemma linspace_length (a b : ℚ) (n : ℕ) : (linspace a b n).length = n := by
  simp [linspace]

lemma le_foldl_max (xs : List ℚ) (x : ℚ) : x ≤ xs.foldl max x := by
  induction xs generalizing x with
  | nil => exact le_refl x
  | cons a t ih => exact le_trans (le_max_left x a) (ih (max x a))

lemma foldl_min_le (xs : List ℚ) (x : ℚ) : xs.foldl min x ≤ x := by
  induction xs generalizing x with
  | nil => exact le_refl x
  | cons a t ih => exact le_trans (ih (min x a)) (min_le_left x a)

lemma listMin_le_listMax {l : List ℚ} (h : l ≠ []) : listMin l ≤ listMax l := by
  match l with
  | [] => exact absurd rfl h
  | x :: xs =>
    exact le_trans (foldl_min_le xs x) (le_foldl_max xs x)

lemma autoRange_fst_le_snd {legs : List OptionLeg} (h : legs ≠ []) :
    (autoRange legs).1 ≤ (autoRange legs).2 := by
  unfold autoRange
  have hne : legs.map (·.strike) ≠ [] := by
    intro hc; exact h (List.map_eq_nil.mp hc)
  have hspread : 0 ≤ listMax (legs.map (·.strike)) - listMin (legs.map (·.strike)) :=
    sub_nonneg.mpr (listMin_le_listMax hne)
  have hmargin := le_trans hspread (le_max_left _
    ((legs.map (·.strike)).sum / ((legs.map (·.strike)).length : ℚ) * (1 / 5)))
  simp only []
  linarith

lemma linspace_sorted {a b : ℚ} (h : a ≤ b) (n : ℕ) :
    (linspace a b n).Sorted (· ≤ ·) := by
  unfold linspace
  rw [List.Sorted, List.pairwise_map]
  refine (List.pairwise_lt_range n).imp ?_
  intro i j hij
  by_cases hn : n ≤ 1
  · simp [hn]
  · simp only [if_neg hn]
    have hn2 : (2 : ℚ) ≤ (n : ℚ) := by exact_mod_cast (by omega : 2 ≤ n)
    have hc : (0 : ℚ) < (n : ℚ) - 1 := by linarith
    have hij' : (i : ℚ) ≤ (j : ℚ) := by exact_mod_cast hij.le
    have hba : (0 : ℚ) ≤ b - a := sub_nonneg.mpr h
    have hmul : (b - a) * (i : ℚ) ≤ (b - a) * (j : ℚ) :=
      mul_le_mul_of_nonneg_left hij' hba
    have hdiv : (b - a) * (i : ℚ) / ((n : ℚ) - 1) ≤
        (b - a) * (j : ℚ) / ((n : ℚ) - 1) :=
      (div_le_div_right hc).mpr hmul
    linarith

lemma payoff_array_length (l : OptionLeg) (spots : List ℚ) :
    (l.payoff_array spots).length = spots.length := by
  unfold OptionLeg.payoff_array
  by_cases h : l.option_type = "call" <;> simp [h]

lemma totalPnl_length (legs : List OptionLeg) (spots : List ℚ) :
    (totalPnl legs spots).length = spots.length := by
  unfold totalPnl
  suffices h : ∀ (acc : List ℚ), acc.length = spots.length →
      (legs.foldl (fun acc leg =>
        List.zipWith (· + ·) acc (leg.payoff_array spots)) acc).length =
        spots.length by
    exact h _ (by simp)
  induction legs with
  | nil => intro acc hacc; exact hacc
  | cons leg rest ih =>
    intro acc hacc
    refine ih _ ?_
    rw [List.length_zipWith, hacc, payoff_array_length, min_self]

lemma totalPnl_nil (legs : List OptionLeg) : totalPnl legs [] = [] :=
  List.length_eq_zero.mp (by rw [totalPnl_length]; rfl)

lemma pnl_at_expiry_eq (s : Strategy) (h : s.legs ≠ []) (n : ℕ) :
    s.pnl_at_expiry none n =
      match npMax (totalPnl s.legs (linspace (autoRange s.legs).1
            (autoRange s.legs).2 n)),
          npMin (totalPnl s.legs (linspace (autoRange s.legs).1
            (autoRange s.legs).2 n)) with
      | .ok mx, .ok mn =>
          .ok ⟨linspace (autoRange s.legs).1 (autoRange s.legs).2 n,
            totalPnl s.legs (linspace (autoRange s.legs).1
              (autoRange s.legs).2 n),
            mx, mn,
            find_breakevens
              (linspace (autoRange s.legs).1 (autoRange s.legs).2 n)
              (totalPnl s.legs (linspace (autoRange s.legs).1
                (autoRange s.legs).2 n))⟩
      | .error e, _ => .error e
      | .ok _, .error e => .error e := by
  unfold Strategy.pnl_at_expiry
  rw [if_neg h]

/-- C7.  Auto-derived spot range: when no range is supplied, evaluation
uses `(center - margin, center + margin)` with `center` the mean of the
leg strikes, `spread` the strike span, and
`margin = max spread (center * 0.2)`; in particular the margin is at
least 20 percent of the center. -/
theorem C7_auto_spot_range (s : Strategy) (n : ℕ) (r : PnLResult)
    (hlegs : s.legs ≠ []) (h : s.pnl_at_expiry none n = .ok r) :
    (let strikes := s.legs.map (·.strike)
     let center := strikes.sum / (strikes.length : ℚ)
     let spread := listMax strikes - listMin strikes
     let margin := max spread (center * (1 / 5))
     autoRange s.legs = (center - margin, center + margin) ∧
     r.spots = linspace (center - margin) (center + margin) n ∧
     center * (1 / 5) ≤ margin) := by
  refine ⟨rfl, ?_, le_max_right _ _⟩
  rw [pnl_at_expiry_eq s hlegs n] at h
  cases hmx : npMax (totalPnl s.legs (linspace (autoRange s.legs).1
      (autoRange s.legs).2 n)) with
  | error e => rw [hmx] at h; exact Except.noConfusion h
  | ok mx =>
    cases hmn : npMin (totalPnl s.legs (linspace (autoRange s.legs).1
        (autoRange s.legs).2 n)) with
    | error e => rw [hmx, hmn] at h; exact Except.noConfusion h
    | ok mn =>
      rw [hmx, hmn] at h
      rw [← Except.ok.inj h]
      rfl

lemma eval_long_call_pnl :
    (long_call 0 100 5).pnl_at_expiry none 2 =
      Except.ok ⟨[80, 120], [-5, 15], 15, -5, [90]⟩ := by
  norm_num [Strategy.pnl_at_expiry, long_call, autoRange, linspace, totalPnl,
    OptionLeg.payoff_array, OptionLeg.direction, npMax, npMin, find_breakevens,
    round2, listMax, listMin, List.range_succ, List.filterMap_cons,
    List.getD_cons_zero, List.getD_cons_succ]

/-- Witness for C7 on a concrete single-leg strategy. -/
theorem C7_auto_spot_range_witness :
    (long_call 0 100 5).legs ≠ [] ∧
    (long_call 0 100 5).pnl_at_expiry none 2 =
      Except.ok ⟨[80, 120], [-5, 15], 15, -5, [90]⟩ ∧
    (let strikes := (long_call 0 100 5).legs.map (·.strike)
     let center := strikes.sum / (strikes.length : ℚ)
     let spread := listMax strikes - listMin strikes
     let margin := max spread (center * (1 / 5))
     autoRange (long_call 0 100 5).legs = (center - margin, center + margin) ∧
     (⟨[80, 120], [-5, 15], 15, -5, [90]⟩ : PnLResult).spots =
       linspace (center - margin) (center + margin) 2 ∧
     center * (1 / 5) ≤ margin) :=
  ⟨by simp [long_call], eval_long_call_pnl,
   C7_auto_spot_range (long_call 0 100 5) 2 _ (by simp [long_call])
     eval_long_call_pnl⟩

/-- C10.  Evaluation totality: with at least one leg and at least one
grid point, P&L evaluation succeeds and yields a grid of `num_points`
ascending samples with `max_loss ≤ max_profit`; with zero points the
empty-grid reduction fails with numpy's error rather than the
documented no-legs error. -/
theorem C10_totality (s : Strategy) (n : ℕ) (hlegs : s.legs ≠ []) :
    (1 ≤ n → ∃ r, s.pnl_at_expiry none n = .ok r ∧
      r.spots.length = n ∧ r.spots.Sorted (· ≤ ·) ∧
      r.max_loss ≤ r.max_profit) ∧
    s.pnl_at_expiry none 0 =
      .error "zero-size array to reduction operation" := by
  constructor
  · intro hn
    have hlen : (totalPnl s.legs (linspace (autoRange s.legs).1
        (autoRange s.legs).2 n)).length = n := by
      rw [totalPnl_length, linspace_length]
    obtain ⟨p, ps, hpnl⟩ : ∃ p ps, totalPnl s.legs
        (linspace (autoRange s.legs).1 (autoRange s.legs).2 n) = p :: ps := by
      cases hT : totalPnl s.legs
          (linspace (autoRange s.legs).1 (autoRange s.legs).2 n) with
      | nil => rw [hT] at hlen; simp at hlen; omega
      | cons p ps => exact ⟨p, ps, rfl⟩
    refine ⟨⟨linspace (autoRange s.legs).1 (autoRange s.legs).2 n, p :: ps,
      ps.foldl max p, ps.foldl min p,
      find_breakevens (linspace (autoRange s.legs).1 (autoRange s.legs).2 n)
        (p :: ps)⟩, ?_, ?_, ?_, ?_⟩
    · rw [pnl_at_expiry_eq s hlegs n, hpnl]
      rfl
    · exact linspace_length _ _ _
    · exact linspace_sorted (autoRange_fst_le_snd hlegs) n
    · exact le_trans (foldl_min_le ps p) (le_foldl_max ps p)
  · rw [pnl_at_expiry_eq s hlegs 0]
    have h0 : linspace (autoRange s.legs).1 (autoRange s.legs).2 0 = [] := rfl
    rw [h0, totalPnl_nil]
    rfl

/-- Witness for C10 on a concrete single-leg strategy. -/
theorem C10_totality_witness :
    (long_call 0 100 5).legs ≠ [] ∧
    ((1 ≤ 2 → ∃ r, (long_call 0 100 5).pnl_at_expiry none 2 = .ok r ∧
      r.spots.length = 2 ∧ r.spots.Sorted (· ≤ ·) ∧
      r.max_loss ≤ r.max_profit) ∧
    (long_call 0 100 5).pnl_at_expiry none 0 =
      .error "zero-size array to reduction operation") :=
  ⟨by simp [long_call],
   C10_totality (long_call 0 100 5) 2 (by simp [long_call])⟩

/-- The standard normal cumulative distribution function
(`scipy.stats.norm.cdf`), written as a Gaussian integral. -/
noncomputable def norm_cdf (x : ℝ) : ℝ :=
  (∫ t in Set.Iic x, Real.exp (-t ^ 2 / 2)) / Real.sqrt (2 * Real.pi)

/-- The standard normal probability density function
(`scipy.stats.norm.pdf`). -/
noncomputable def norm_pdf (x : ℝ) : ℝ :=
  Real.exp (-x ^ 2 / 2) / Real.sqrt (2 * Real.pi)

/-- The Black-Scholes model state (`pricing.py`, `class BlackScholes`):
the five constructor fields.  `time_to_expiry` is the derived
`expiry_days / 365.0`. -/
structure BlackScholes where
  spot : ℝ
  strike : ℝ
  expiry_days : ℝ
  volatility : ℝ
  rate : ℝ

namespace BlackScholes

/-- Derived `_time_to_expiry = expiry_days / 365.0` (`pricing.py`
line 25). -/
noncomputable def time_to_expiry (m : BlackScholes) : ℝ :=
  m.expiry_days / 365

/-- `BlackScholes._d1` (`pricing.py` lines 31-37), general branch.  At
`t <= 0` the source returns plus or minus infinity, which no caller ever
feeds into arithmetic (every caller branches on `t <= 0` first and never
reads `d1` there); real numbers have no infinities, so the embedding
keeps only the `t > 0` formula and every guard stays at the call
sites exactly as in the source. -/
noncomputable def d1 (m : BlackScholes) : ℝ :=
  (Real.log (m.spot / m.strike) +
      (m.rate + 0.5 * m.volatility ^ 2) * m.time_to_expiry) /
    (m.volatility * Real.sqrt m.time_to_expiry)

/-- `BlackScholes._d2` (`pricing.py` lines 39-43): returns `_d1` when
`t <= 0`, else `_d1 - volatility * sqrt t`. -/
noncomputable def d2 (m : BlackScholes) : ℝ :=
  if m.time_to_expiry ≤ 0 then m.d1
  else m.d1 - m.volatility * Real.sqrt m.time_to_expiry

/-- `BlackScholes.call_price` (`pricing.py` lines 45-52). -/
noncomputable def call_price (m : BlackScholes) : ℝ :=
  if m.time_to_expiry ≤ 0 then max (m.spot - m.strike) 0
  else m.spot * norm_cdf m.d1 -
    m.strike * Real.exp (-m.rate * m.time_to_expiry) * norm_cdf m.d2

/-- `BlackScholes.put_price` (`pricing.py` lines 54-61). -/
noncomputable def put_price (m : BlackScholes) : ℝ :=
  if m.time_to_expiry ≤ 0 then max (m.strike - m.spot) 0
  else m.strike * Real.exp (-m.rate * m.time_to_expiry) * norm_cdf (-m.d2) -
    m.spot * norm_cdf (-m.d1)

/-- `BlackScholes.price` (`pricing.py` lines 63-69): dispatch on the
option type, `ValueError` otherwise (message abridged). -/
noncomputable def price (m : BlackScholes) (option_type : String) :
    Except String ℝ :=
  if option_type = "call" then .ok m.call_price
  else if option_type = "put" then .ok m.put_price
  else .error "option_type must be call or put"

/-- `BlackScholes.delta` (`pricing.py` lines 71-83).  Note the source's
`t <= 0` branch returns a boundary value for every option type without
validating it: any type other than `call` takes the put branch. -/
noncomputable def delta (m : BlackScholes) (option_type : String) :
    Except String ℝ :=
  if m.time_to_expiry ≤ 0 then
    if option_type = "call" then .ok (if m.strike < m.spot then 1 else 0)
    else .ok (if m.spot < m.strike then -1 else 0)
  else if option_type = "call" then .ok (norm_cdf m.d1)
  else if option_type = "put" then .ok (norm_cdf m.d1 - 1)
  else .error "option_type must be call or put"

/-- `BlackScholes.theta` (`pricing.py` lines 93-109).  The source's
`t <= 0` branch returns `0.0` before inspecting the option type. -/
noncomputable def theta (m : BlackScholes) (option_type : String) :
    Except String ℝ :=
  if m.time_to_expiry ≤ 0 then .ok 0
  else
    if option_type = "call" then
      .ok ((-(m.spot * norm_pdf m.d1 * m.volatility) /
          (2 * Real.sqrt m.time_to_expiry) -
        m.rate * m.strike * Real.exp (-m.rate * m.time_to_expiry) *
          norm_cdf m.d2) / 365)
    else if option_type = "put" then
      .ok ((-(m.spot * norm_pdf m.d1 * m.volatility) /
          (2 * Real.sqrt m.time_to_expiry) +
        m.rate * m.strike * Real.exp (-m.rate * m.time_to_expiry) *
          norm_cdf (-m.d2)) / 365)
    else .error "option_type must be call or put"

/-- `BlackScholes.rho` (`pricing.py` lines 119-131).  The source's
`t <= 0` branch returns `0.0` before inspecting the option type. -/
noncomputable def rho (m : BlackScholes) (option_type : String) :
    Except String ℝ :=
  if m.time_to_expiry ≤ 0 then .ok 0
  else if option_type = "call" then
    .ok (m.strike * m.time_to_expiry * Real.exp (-m.rate * m.time_to_expiry) *
      norm_cdf m.d2 / 100)
  else if option_type = "put" then
    .ok (-m.strike * m.time_to_expiry *
      Real.exp (-m.rate * m.time_to_expiry) * norm_cdf (-m.d2) / 100)
  else .error "option_type must be call or put"

end BlackScholes

lemma gauss_fun_eq :
    (fun t : ℝ => Real.exp (-t ^ 2 / 2)) =
      fun t : ℝ => Real.exp (-(1 / 2 : ℝ) * t ^ 2) := by
  funext t; ring_nf

lemma gauss_integrable :
    MeasureTheory.Integrable (fun t : ℝ => Real.exp (-t ^ 2 / 2)) := by
  rw [gauss_fun_eq]
  exact integrable_exp_neg_mul_sq (by norm_num)

lemma gauss_total :
    (∫ t : ℝ, Real.exp (-t ^ 2 / 2)) = Real.sqrt (2 * Real.pi) := by
  rw [gauss_fun_eq, integral_gaussian]
  have h : Real.pi / (1 / 2 : ℝ) = 2 * Real.pi := by ring
  rw [h]

lemma norm_cdf_add_neg (x : ℝ) : norm_cdf x + norm_cdf (-x) = 1 := by
  unfold norm_cdf
  have hneg : (∫ t in Set.Iic (-x), Real.exp (-t ^ 2 / 2)) =
      ∫ t in Set.Ioi x, Real.exp (-t ^ 2 / 2) := by
    have h := integral_comp_neg_Iic (-x) (fun t : ℝ => Real.exp (-t ^ 2 / 2))
    simp only [neg_neg, neg_sq] at h
    exact h
  have hsplit : (∫ t in Set.Iic x, Real.exp (-t ^ 2 / 2)) +
      (∫ t in Set.Ioi x, Real.exp (-t ^ 2 / 2)) =
      ∫ t : ℝ, Real.exp (-t ^ 2 / 2) :=
    intervalIntegral.integral_Iic_add_Ioi gauss_integrable.integrableOn
      gauss_integrable.integrableOn
  have hpos : (0 : ℝ) < Real.sqrt (2 * Real.pi) :=
    Real.sqrt_pos.mpr (by positivity)
  rw [hneg, div_add_div_same, hsplit, gauss_total, div_self (ne_of_gt hpos)]

/-- C1.  Put-call parity: with positive spot, strike, days to expiry
and volatility, `call_price - put_price` equals
`spot - strike * exp(-rate * t)` exactly in the exact-arithmetic
embedding (hence certainly within the specified 1e-8 tolerance). -/
theorem C1_put_call_parity (m : BlackScholes) (hspot : 0 < m.spot)
    (hstrike : 0 < m.strike) (hexp : 0 < m.expiry_days)
    (hvol : 0 < m.volatility) :
    m.call_price - m.put_price =
      m.spot - m.strike * Real.exp (-m.rate * m.time_to_expiry) := by
  have ht : 0 < m.time_to_expiry := by
    unfold BlackScholes.time_to_expiry; positivity
  have ht2 : ¬m.time_to_expiry ≤ 0 := not_le.mpr ht
  unfold BlackScholes.call_price BlackScholes.put_price
  rw [if_neg ht2, if_neg ht2]
  have h1 := norm_cdf_add_neg m.d1
  have h2 := norm_cdf_add_neg m.d2
  linear_combination m.spot * h1 -
    m.strike * Real.exp (-m.rate * m.time_to_expiry) * h2

/-- Witness for C1 at a concrete at-the-money model. -/
theorem C1_put_call_parity_witness :
    ((0 : ℝ) < 100 ∧ (0 : ℝ) < 100 ∧ (0 : ℝ) < 365 ∧ (0 : ℝ) < 1) ∧
    BlackScholes.call_price ⟨100, 100, 365, 1, 0⟩ -
        BlackScholes.put_price ⟨100, 100, 365, 1, 0⟩ =
      100 - 100 * Real.exp (-(0 : ℝ) *
        BlackScholes.time_to_expiry ⟨100, 100, 365, 1, 0⟩) :=
  ⟨⟨by norm_num, by norm_num, by norm_num, by norm_num⟩,
   C1_put_call_parity ⟨100, 100, 365, 1, 0⟩
     (show (0 : ℝ) < 100 by norm_num) (show (0 : ℝ) < 100 by norm_num)
     (show (0 : ℝ) < 365 by norm_num) (show (0 : ℝ) < 1 by norm_num)⟩

/-- C2.  Expiry boundary: when the time to expiry is nonpositive, the
prices are exactly the intrinsic values, taken from the dedicated
boundary branch. -/
theorem C2_expiry_boundary (m : BlackScholes) (ht : m.time_to_expiry ≤ 0) :
    m.call_price = max (m.spot - m.strike) 0 ∧
    m.put_price = max (m.strike - m.spot) 0 := by
  unfold BlackScholes.call_price BlackScholes.put_price
  rw [if_pos ht, if_pos ht]
  exact ⟨rfl, rfl⟩

/-- Witness for C2 at a concrete expired model. -/
theorem C2_expiry_boundary_witness :
    BlackScholes.time_to_expiry ⟨100, 90, 0, 1/4, 1/20⟩ ≤ 0 ∧
    (BlackScholes.call_price ⟨100, 90, 0, 1/4, 1/20⟩ =
        max ((100 : ℝ) - 90) 0 ∧
      BlackScholes.put_price ⟨100, 90, 0, 1/4, 1/20⟩ =
        max ((90 : ℝ) - 100) 0) := by
  have ht : BlackScholes.time_to_expiry ⟨100, 90, 0, 1/4, 1/20⟩ ≤ 0 := by
    norm_num [BlackScholes.time_to_expiry]
  exact ⟨ht, C2_expiry_boundary ⟨100, 90, 0, 1/4, 1/20⟩ ht⟩

/-- C4 (amended).  `price` rejects an option type outside call/put in
every model state; `delta`, `theta` and `rho` reject it exactly when the
time to expiry is positive (their `t <= 0` branches return boundary
values without validating the type). -/
theorem C4_invalid_option_type (m : BlackScholes) (option_type : String)
    (hc : option_type ≠ "call") (hp : option_type ≠ "put") :
    m.price option_type = .error "option_type must be call or put" ∧
    (0 < m.time_to_expiry →
      m.delta option_type = .error "option_type must be call or put" ∧
      m.theta option_type = .error "option_type must be call or put" ∧
      m.rho option_type = .error "option_type must be call or put") := by
  constructor
  · simp [BlackScholes.price, hc, hp]
  · intro ht
    have ht2 : ¬m.time_to_expiry ≤ 0 := not_le.mpr ht
    refine ⟨?_, ?_, ?_⟩ <;>
      simp [BlackScholes.delta, BlackScholes.theta, BlackScholes.rho,
        hc, hp, ht2]

/-- Witness for the amended C4 at a concrete unexpired model and the
type string `banana`. -/
theorem C4_invalid_option_type_witness :
    ("banana" ≠ "call" ∧ "banana" ≠ "put" ∧
      0 < BlackScholes.time_to_expiry ⟨100, 100, 365, 1, 0⟩) ∧
    BlackScholes.price ⟨100, 100, 365, 1, 0⟩ "banana" =
      .error "option_type must be call or put" ∧
    BlackScholes.delta ⟨100, 100, 365, 1, 0⟩ "banana" =
      .error "option_type must be call or put" ∧
    BlackScholes.theta ⟨100, 100, 365, 1, 0⟩ "banana" =
      .error "option_type must be call or put" ∧
    BlackScholes.rho ⟨100, 100, 365, 1, 0⟩ "banana" =
      .error "option_type must be call or put" := by
  have h := C4_invalid_option_type ⟨100, 100, 365, 1, 0⟩ "banana"
    (by decide) (by decide)
  have ht : (0 : ℝ) < BlackScholes.time_to_expiry ⟨100, 100, 365, 1, 0⟩ := by
    norm_num [BlackScholes.time_to_expiry]
  exact ⟨⟨by decide, by decide, ht⟩, h.1, (h.2 ht).1, (h.2 ht).2.1,
    (h.2 ht).2.2⟩

/-- Counterexample to C4 as stated: at an expired model (`t <= 0`) the
Greek calls `delta`, `theta`, `rho` return ordinary values for the
invalid option type `banana` instead of failing. -/
theorem C4_counterexample :
    ("banana" ≠ "call" ∧ "banana" ≠ "put") ∧
    BlackScholes.delta ⟨100, 90, 0, 1/4, 1/20⟩ "banana" = .ok 0 ∧
    BlackScholes.theta ⟨100, 90, 0, 1/4, 1/20⟩ "banana" = .ok 0 ∧
    BlackScholes.rho ⟨100, 90, 0, 1/4, 1/20⟩ "banana" = .ok 0 := by
  refine ⟨⟨by decide, by decide⟩, ?_, ?_, ?_⟩
  · norm_num [BlackScholes.delta, BlackScholes.time_to_expiry,
      show ("banana" = "call") = False from by simp]
  · norm_num [BlackScholes.theta, BlackScholes.time_to_expiry]
  · norm_num [BlackScholes.rho, BlackScholes.time_to_expiry]
